import Mathlib

/-!
Shallow embedding of the sort-and-selection state engine of
`src/src/components/DataTable.tsx` (Interactive-Table repository).

Modelling conventions:
* A JavaScript cell value is embedded as `Value`: `null` covers both
  `null` and `undefined` (the source only ever tests `== null`, which
  matches both); JS numbers are embedded as `Int`; `Date` objects as
  their epoch instant (`getTime`), also an `Int`.
* `localeCompare` is embedded as code-point lexicographic string
  comparison returning -1/0/1 (the source only uses the sign).
* `String(v)` (the canonical string form used by the comparator
  fallback) is embedded by `Value.toStr`; the string form of a `Date`
  is modelled abstractly since no behaviour in scope depends on it.
* A row (`T extends Record<string, any>`) is an association list from
  field names to values; reading a missing field yields `Value.null`
  (JS `undefined`, which the source's `?? ` and `== null` checks treat
  like `null`).
* The `rowKey` prop is modelled in its field-name form (default `'id'`);
  the function form adds nothing to the properties in scope.
* React `useState` cells `sortState` / `selectedRows` become the record
  `TableState`; each event handler is a pure state transformer.
* A JS `Set` used only through `has` / `add` / `delete` / `size` is a
  `Finset`.
* Presentation-only `Column` fields (`title`, `width`, `render`) are
  omitted; `sortable?: boolean` absent/undefined is falsy, hence `Bool`.
-/

/-- A JavaScript cell value, as far as the table logic observes it. -/
inductive Value : Type
  | null
  | str (s : String)
  | num (n : Int)
  | date (t : Int)
deriving DecidableEq

/-- `String(v)`: the canonical string form used by the comparator
fallback branch.  `null` is unreachable there (handled earlier), and a
`Date` string form is modelled abstractly. -/
def Value.toStr : Value → String
  | .null => "null"
  | .str s => s
  | .num n => toString n
  | .date t => "Date:" ++ toString t

/-- A row: association list from field names to values. -/
abbrev Row := List (String × Value)

/-- `record[k]`: field lookup; a missing field reads as `undefined`,
embedded as `Value.null`. -/
def Row.get (r : Row) (k : String) : Value :=
  (List.lookup k r).getD Value.null

/-- Column descriptor (logic-relevant fields of `Column<T>`). -/
structure Column : Type where
  key : String
  dataIndex : String
  sortable : Bool
deriving DecidableEq

/-- `type SortDirection = 'asc' | 'desc' | null` — the two non-null
directions; `null` is `Option.none` at the use sites. -/
inductive SortDir : Type
  | asc
  | desc
deriving DecidableEq

/-- `interface SortState { key: string | null; direction: SortDirection }`. -/
structure SortState : Type where
  key : Option String
  direction : Option SortDir
deriving DecidableEq

/-- Sign of a string comparison, embedding `a.localeCompare(b)`
(the source only inspects the sign). -/
def strCmp (a b : String) : Int :=
  match compare a b with
  | .lt => -1
  | .eq => 0
  | .gt => 1

/-- The comparator body of `sortedData` (DataTable.tsx lines 61-91):
null handling, then per-type comparison, then string fallback;
descending direction flips each branch exactly as in the source. -/
def compareValues (dir : SortDir) (aValue bValue : Value) : Int :=
  if aValue = Value.null ∧ bValue = Value.null then 0
  else if aValue = Value.null then (if dir = SortDir.asc then -1 else 1)
  else if bValue = Value.null then (if dir = SortDir.asc then 1 else -1)
  else
    match aValue, bValue with
    | Value.str a, Value.str b =>
        if dir = SortDir.asc then strCmp a b else -(strCmp a b)
    | Value.num a, Value.num b =>
        if dir = SortDir.asc then a - b else b - a
    | Value.date a, Value.date b =>
        if dir = SortDir.asc then a - b else b - a
    | a, b =>
        if dir = SortDir.asc then strCmp a.toStr b.toStr
        else -(strCmp a.toStr b.toStr)

/-- Insert `x` into `l` before the first element `y` with `le x y`;
one step of the stable sort modelling `Array.prototype.sort`
(specified stable since ES2019). -/
def jsInsert (le : α → α → Bool) (x : α) : List α → List α
  | [] => [x]
  | y :: l => if le x y then x :: y :: l else y :: jsInsert le x l

/-- Stable sort modelling `[...data].sort(cmp)`: each element is placed
into the sorted list of the elements that followed it, never passing an
element it compares `≤ 0` against — earlier elements stay first among
ties. -/
def jsSort (le : α → α → Bool) : List α → List α
  | [] => []
  | x :: l => jsInsert le x (jsSort le l)

/-- `getRowKey(record, index)`: `record[rowKey] ?? index`
(field-name form of the `rowKey` prop). -/
def getRowKey (rowKey : String) (record : Row) (index : Nat) : Value :=
  match record.get rowKey with
  | Value.null => Value.num index
  | v => v

/-- Helper for `data.map((record, index) => getRowKey(record, index))`,
carrying the positional index. -/
def identitiesFrom (rowKey : String) : Nat → List Row → List Value
  | _, [] => []
  | i, r :: rest => getRowKey rowKey r i :: identitiesFrom rowKey (i + 1) rest

/-- The identity of every row of the data set, in data order. -/
def identities (rowKey : String) (data : List Row) : List Value :=
  identitiesFrom rowKey 0 data

/-- `sortedData` (lines 53-93): unchanged data when no key or direction
is active (JS falsiness: the empty-string key is also falsy) or the key
names no column; otherwise a stable sort by the comparator on the
column's `dataIndex` values. -/
def sortedData (data : List Row) (columns : List Column) (ss : SortState) : List Row :=
  match ss.key, ss.direction with
  | some k, some dir =>
      if k = "" then data
      else
        match columns.find? (fun col => col.key == k) with
        | none => data
        | some col =>
            jsSort
              (fun a b =>
                decide (compareValues dir (a.get col.dataIndex) (b.get col.dataIndex) ≤ 0))
              data
  | _, _ => data

/-- `handleSort` (lines 96-110): non-sortable columns are a no-op; the
active column cycles asc → desc → null (key cleared with the
direction); any other column becomes active ascending. -/
def handleSort (column : Column) (prev : SortState) : SortState :=
  if column.sortable = false then prev
  else if prev.key = some column.key then
    let newDirection : Option SortDir :=
      if prev.direction = some SortDir.asc then some SortDir.desc
      else if prev.direction = some SortDir.desc then none
      else some SortDir.asc
    { key := match newDirection with
        | some _ => some column.key
        | none => none
      direction := newDirection }
  else
    { key := some column.key, direction := some SortDir.asc }

/-- The `selectedRows` update of `handleRowSelect` (lines 113-122):
toggle membership of the clicked row's key. -/
def handleRowSelect (rowKey : Value) (selectedRows : Finset Value) : Finset Value :=
  if rowKey ∈ selectedRows then selectedRows.erase rowKey
  else insert rowKey selectedRows

/-- Helper for the emission filter of `handleRowSelect`, carrying the
positional index of `data.filter((record, index) => ...)`. -/
def selectedRecordsFrom (rowKey : String) (sel : Finset Value) :
    Nat → List Row → List Row
  | _, [] => []
  | i, r :: rest =>
      if getRowKey rowKey r i ∈ sel then
        r :: selectedRecordsFrom rowKey sel (i + 1) rest
      else selectedRecordsFrom rowKey sel (i + 1) rest

/-- The list emitted to `onRowSelect` by `handleRowSelect`
(lines 124-129): the current data filtered by selected identity, in
data order. -/
def selectedRecords (rowKey : String) (sel : Finset Value) (data : List Row) : List Row :=
  selectedRecordsFrom rowKey sel 0 data

/-- The `selectedRows` update of `handleSelectAll` (lines 133-144):
clear when the stored set's size equals the row count, otherwise store
the set of all current identities. -/
def handleSelectAll (rowKey : String) (data : List Row) (selectedRows : Finset Value) :
    Finset Value :=
  if selectedRows.card = data.length then ∅
  else (identities rowKey data).toFinset

/-- The two `useState` cells of the component. -/
structure TableState : Type where
  sortState : SortState
  selectedRows : Finset Value

/-- `handleSort` as a transformer of the whole component state:
`setSortState` touches only the sort cell. -/
def sortAction (column : Column) (st : TableState) : TableState :=
  { st with sortState := handleSort column st.sortState }

/-- `handleRowSelect` as a transformer of the whole component state:
`setSelectedRows` touches only the selection cell. -/
def rowSelectAction (rowKey : Value) (st : TableState) : TableState :=
  { st with selectedRows := handleRowSelect rowKey st.selectedRows }

/-- `handleSelectAll` as a transformer of the whole component state. -/
def selectAllAction (rowKey : String) (data : List Row) (st : TableState) : TableState :=
  { st with selectedRows := handleSelectAll rowKey data st.selectedRows }

/-! ## Helper lemmas -/

/-- A string compares equal to itself. -/
theorem strCmp_self (s : String) : strCmp s s = 0 := by
  simp [strCmp, compare, compareOfLessAndEq]

/-- The comparator returns 0 on two equal values, in both directions. -/
theorem compareValues_self (dir : SortDir) (v : Value) : compareValues dir v v = 0 := by
  cases v <;> cases dir <;> simp [compareValues, strCmp_self]

/-- `identitiesFrom` yields one identity per row. -/
theorem identitiesFrom_length (rk : String) (i : Nat) (data : List Row) :
    (identitiesFrom rk i data).length = data.length := by
  induction data generalizing i with
  | nil => rfl
  | cons a l ih => simp [identitiesFrom, ih]

/-- `identities` yields one identity per row. -/
theorem identities_length (rk : String) (data : List Row) :
    (identities rk data).length = data.length :=
  identitiesFrom_length rk 0 data

/-- Inserting an element the filter rejects does not change the filtered list. -/
theorem filter_jsInsert_neg (le : α → α → Bool) (p : α → Bool) (x : α) (l : List α)
    (hx : p x = false) : (jsInsert le x l).filter p = l.filter p := by
  induction l with
  | nil => simp [jsInsert, hx]
  | cons y l ih =>
    cases h : le x y with
    | true => simp [jsInsert, h, hx]
    | false => simp [jsInsert, h, List.filter_cons, ih]

/-- An element the filter keeps, inserted by `jsInsert`, lands before
every kept element of the list, provided it compares `le` against all
kept elements. -/
theorem filter_jsInsert_pos (le : α → α → Bool) (p : α → Bool) (x : α) (l : List α)
    (hx : p x = true) (hxy : ∀ y, p y = true → le x y = true) :
    (jsInsert le x l).filter p = x :: l.filter p := by
  induction l with
  | nil => simp [jsInsert, hx]
  | cons y l ih =>
    cases h : le x y with
    | true => simp [jsInsert, h, hx]
    | false =>
      have hpy : p y = false := by
        cases hpy : p y with
        | true => exact absurd (hxy y hpy) (by simp [h])
        | false => rfl
      simp [jsInsert, h, hpy, ih]

/-- Stability of `jsSort` relative to a filter whose kept elements all
compare `le` with each other: the filtered output equals the filtered
input. -/
theorem filter_jsSort (le : α → α → Bool) (p : α → Bool) (l : List α)
    (hle : ∀ x y, p x = true → p y = true → le x y = true) :
    (jsSort le l).filter p = l.filter p := by
  induction l with
  | nil => rfl
  | cons x l ih =>
    cases hx : p x with
    | true =>
      rw [jsSort, filter_jsInsert_pos le p x _ hx (fun y hy => hle x y hx hy), ih]
      simp [hx]
    | false =>
      rw [jsSort, filter_jsInsert_neg le p x _ hx, ih]
      simp [hx]

/-! ## Claims -/

/-- C1: the code has no single-selection mode: from the empty selection,
`toggleRow(1)` then `toggleRow(2)` stores `{1, 2}` — `handleRowSelect`
always toggles membership independently, so the selection is unioned,
not replaced as the single-mode contract requires. -/
theorem no_single_selection_mode :
    handleRowSelect (Value.num 2) (handleRowSelect (Value.num 1) (∅ : Finset Value))
      = {Value.num 1, Value.num 2} := by decide

/-- C5: repeated `handleSort` on a sortable column cycles
none → ascending → descending → none (key cleared with the direction),
and `handleSort` on a sortable column that is not the active one always
lands on ascending, from every sort state. -/
theorem sort_cycle_correct (c d : Column) (s : SortState)
    (hc : c.sortable = true) (hd : d.sortable = true) (hne : s.key ≠ some d.key) :
    handleSort c ⟨none, none⟩ = ⟨some c.key, some SortDir.asc⟩ ∧
    handleSort c ⟨some c.key, some SortDir.asc⟩ = ⟨some c.key, some SortDir.desc⟩ ∧
    handleSort c ⟨some c.key, some SortDir.desc⟩ = ⟨none, none⟩ ∧
    handleSort d s = ⟨some d.key, some SortDir.asc⟩ := by
  refine ⟨?_, ?_, ?_, ?_⟩ <;> simp [handleSort, hc, hd, hne]

/-- Witness for C5 at concrete columns and the initial state. -/
theorem sort_cycle_correct_witness :
    handleSort ⟨"a", "a", true⟩ ⟨none, none⟩ = ⟨some "a", some SortDir.asc⟩ ∧
    handleSort ⟨"a", "a", true⟩ ⟨some "a", some SortDir.asc⟩ = ⟨some "a", some SortDir.desc⟩ ∧
    handleSort ⟨"a", "a", true⟩ ⟨some "a", some SortDir.desc⟩ = ⟨none, none⟩ ∧
    handleSort ⟨"b", "b", true⟩ ⟨none, none⟩ = ⟨some "b", some SortDir.asc⟩ :=
  sort_cycle_correct ⟨"a", "a", true⟩ ⟨"b", "b", true⟩ ⟨none, none⟩ rfl rfl (by decide)

/-- C7: when the sort key is absent or names no column of the column
list, `sortedData` returns the input sequence unchanged. -/
theorem unsorted_round_trip (data : List Row) (columns : List Column) (ss : SortState)
    (h : ∀ c ∈ columns, some c.key ≠ ss.key) :
    sortedData data columns ss = data := by
  obtain ⟨k, d⟩ := ss
  match k, d with
  | none, _ => rfl
  | some k, none => rfl
  | some k, some dir =>
    by_cases hk : k = ""
    · simp [sortedData, hk]
    · have hfind : columns.find? (fun col => col.key == k) = none := by
        apply List.find?_eq_none.mpr
        intro c hc
        simp only [beq_iff_eq]
        intro hck
        exact (h c hc) (by rw [hck])
      simp [sortedData, hk, hfind]

/-- Witness for C7 at a one-row data set and a key naming no column. -/
theorem unsorted_round_trip_witness :
    sortedData [[("a", Value.num 1)]] [⟨"b", "b", true⟩] ⟨some "a", some SortDir.asc⟩
      = [[("a", Value.num 1)]] :=
  unsorted_round_trip [[("a", Value.num 1)]] [⟨"b", "b", true⟩]
    ⟨some "a", some SortDir.asc⟩ (by decide)

/-- C8: the comparator returns 0 when both values are absent; a single
absent value compares negative (sorts first) under ascending and
positive (sorts last) under descending, and symmetrically for the
present value. -/
theorem comparator_null_rules (dir : SortDir) (v : Value) (hv : v ≠ Value.null) :
    compareValues dir Value.null Value.null = 0 ∧
    compareValues SortDir.asc Value.null v < 0 ∧
    0 < compareValues SortDir.asc v Value.null ∧
    0 < compareValues SortDir.desc Value.null v ∧
    compareValues SortDir.desc v Value.null < 0 := by
  refine ⟨by simp [compareValues], ?_, ?_, ?_, ?_⟩ <;> simp [compareValues, hv]

/-- Witness for C8 at a present numeric value. -/
theorem comparator_null_rules_witness :
    compareValues SortDir.asc Value.null Value.null = 0 ∧
    compareValues SortDir.asc Value.null (Value.num 0) < 0 ∧
    0 < compareValues SortDir.asc (Value.num 0) Value.null ∧
    0 < compareValues SortDir.desc Value.null (Value.num 0) ∧
    compareValues SortDir.desc (Value.num 0) Value.null < 0 :=
  comparator_null_rules SortDir.asc (Value.num 0) (by decide)

/-- C9: sorting leaves the selection cell unchanged, and both selection
operations leave the sort cell unchanged — the two `useState` cells are
mutually framed. -/
theorem sort_selection_frame (c : Column) (k : Value) (rk : String)
    (data : List Row) (st : TableState) :
    (sortAction c st).selectedRows = st.selectedRows ∧
    (rowSelectAction k st).sortState = st.sortState ∧
    (selectAllAction rk data st).sortState = st.sortState :=
  ⟨rfl, rfl, rfl⟩

/-- C10: toggling the same row identity twice restores the stored
selection set exactly. -/
theorem toggle_row_involution (k : Value) (sel : Finset Value) :
    handleRowSelect k (handleRowSelect k sel) = sel := by
  by_cases h : k ∈ sel
  · simp [handleRowSelect, h, Finset.insert_erase]
  · simp [handleRowSelect, h, Finset.erase_insert]

/-- C2 counterexample: `toggleRow` does not purge stale identities from
the stored set.  With current data holding only the row of identity 1,
toggling row 1 while the stale identity 5 is stored keeps 5 in the
stored selection set although 5 is not an identity of the current data. -/
theorem stale_identity_retained :
    Value.num 5 ∈ handleRowSelect (Value.num 1) {Value.num 5} ∧
    Value.num 5 ∉ (identities "id" [[("id", Value.num 1)]]).toFinset := by decide

/-- C2 (amended): every row emitted by `handleRowSelect`'s filter is a
row of the current data set, and `handleSelectAll` stores only
identities of the current data set; the stored set is not cleaned by
`handleRowSelect` itself. -/
theorem selection_lazy_cleanup (rk : String) (sel : Finset Value) (data : List Row) :
    (∀ r ∈ selectedRecords rk sel data, r ∈ data) ∧
    (∀ x ∈ handleSelectAll rk data sel, x ∈ (identities rk data).toFinset) := by
  constructor
  · have key : ∀ i, ∀ r ∈ selectedRecordsFrom rk sel i data, r ∈ data := by
      induction data with
      | nil => intro i r hr; simp [selectedRecordsFrom] at hr
      | cons a l ih =>
        intro i r hr
        simp only [selectedRecordsFrom] at hr
        by_cases h : getRowKey rk a i ∈ sel
        · rw [if_pos h] at hr
          rcases List.mem_cons.mp hr with h1 | h2
          · exact h1 ▸ List.mem_cons_self a l
          · exact List.mem_cons_of_mem a (ih (i + 1) r h2)
        · rw [if_neg h] at hr
          exact List.mem_cons_of_mem a (ih (i + 1) r hr)
    exact key 0
  · intro x hx
    unfold handleSelectAll at hx
    by_cases h : sel.card = data.length
    · rw [if_pos h] at hx
      simp at hx
    · rwa [if_neg h] at hx

/-- Witness for C2 at a two-row data set with row 1 selected. -/
theorem selection_lazy_cleanup_witness :
    ([("id", Value.num 1)] : Row)
      ∈ ([[("id", Value.num 1)], [("id", Value.num 2)]] : List Row) :=
  (selection_lazy_cleanup "id" {Value.num 1}
      [[("id", Value.num 1)], [("id", Value.num 2)]]).1
    [("id", Value.num 1)] (by decide)

/-- C3 counterexample: `handleSelectAll` tests sizes, not sets.  With
current data of identities {1, 2} and the stored selection {1, 99}
(99 stale), the selection is cleared although it does not equal the
full identity set. -/
theorem select_all_clears_on_size_match :
    handleSelectAll "id" [[("id", Value.num 1)], [("id", Value.num 2)]]
        {Value.num 1, Value.num 99} = ∅ ∧
    ({Value.num 1, Value.num 99} : Finset Value)
      ≠ (identities "id" [[("id", Value.num 1)], [("id", Value.num 2)]]).toFinset := by
  decide

/-- C3 (amended): provided the stored selection only holds identities of
the current data set and the data set's identities are pairwise
distinct, `handleSelectAll` clears the selection exactly when it equals
the full identity set, and otherwise stores the full identity set. -/
theorem select_all_set_semantics (rk : String) (data : List Row) (sel : Finset Value)
    (hsub : sel ⊆ (identities rk data).toFinset)
    (hnd : (identities rk data).Nodup) :
    (handleSelectAll rk data sel = ∅ ↔ sel = (identities rk data).toFinset) ∧
    (sel ≠ (identities rk data).toFinset →
      handleSelectAll rk data sel = (identities rk data).toFinset) := by
  have hcard : (identities rk data).toFinset.card = data.length := by
    rw [List.toFinset_card_of_nodup hnd, identities_length]
  have heq : sel.card = data.length → sel = (identities rk data).toFinset := fun h =>
    Finset.eq_of_subset_of_card_le hsub (by rw [hcard, h])
  constructor
  · constructor
    · intro h0
      unfold handleSelectAll at h0
      by_cases h : sel.card = data.length
      · exact heq h
      · rw [if_neg h] at h0
        have hlen : data.length = 0 := by rw [← hcard, h0, Finset.card_empty]
        have hsel : sel.card = 0 :=
          Nat.le_zero.mp (le_trans (Finset.card_le_card hsub) (by rw [hcard, hlen]))
        exact absurd (hsel.trans hlen.symm) h
    · intro h
      have : sel.card = data.length := by rw [h, hcard]
      simp [handleSelectAll, this]
  · intro hne
    have h : sel.card ≠ data.length := fun hc => hne (heq hc)
    simp [handleSelectAll, h]

/-- Witness for C3 at a two-row data set with a proper selection. -/
theorem select_all_set_semantics_witness :
    handleSelectAll "id" [[("id", Value.num 1)], [("id", Value.num 2)]] {Value.num 1}
      = (identities "id" [[("id", Value.num 1)], [("id", Value.num 2)]]).toFinset :=
  (select_all_set_semantics "id" [[("id", Value.num 1)], [("id", Value.num 2)]]
      {Value.num 1} (by decide) (by decide)).2 (by decide)

/-- C4 counterexample: from the proper selection {1} over a two-row data
set, two `handleSelectAll` calls end at the empty selection, not back at
{1}. -/
theorem select_all_not_involutive_on_proper_subsets :
    handleSelectAll "id" [[("id", Value.num 1)], [("id", Value.num 2)]]
        (handleSelectAll "id" [[("id", Value.num 1)], [("id", Value.num 2)]]
          {Value.num 1})
      ≠ {Value.num 1} := by decide

/-- C4 (amended): with pairwise-distinct identities and an unchanged
data set, two `handleSelectAll` calls restore the stored selection
provided it was the empty set or the full identity set. -/
theorem select_all_involution (rk : String) (data : List Row) (sel : Finset Value)
    (hnd : (identities rk data).Nodup)
    (h : sel = ∅ ∨ sel = (identities rk data).toFinset) :
    handleSelectAll rk data (handleSelectAll rk data sel) = sel := by
  have hcard : (identities rk data).toFinset.card = data.length := by
    rw [List.toFinset_card_of_nodup hnd, identities_length]
  rcases h with rfl | rfl
  · by_cases h0 : data.length = 0
    · simp [handleSelectAll, h0]
    · have h1 : (∅ : Finset Value).card ≠ data.length := by simpa using Ne.symm h0
      have step1 : handleSelectAll rk data ∅ = (identities rk data).toFinset := by
        rw [handleSelectAll, if_neg h1]
      rw [step1, handleSelectAll, if_pos hcard]
  · have step1 : handleSelectAll rk data (identities rk data).toFinset = ∅ := by
      rw [handleSelectAll, if_pos hcard]
    rw [step1]
    by_cases h0 : data.length = 0
    · have hempty : (identities rk data).toFinset = ∅ :=
        Finset.card_eq_zero.mp (by rw [hcard, h0])
      rw [handleSelectAll, if_pos (by simp [h0]), hempty]
    · rw [handleSelectAll, if_neg (by simpa using Ne.symm h0)]

/-- Witness for C4 at the empty selection over a two-row data set. -/
theorem select_all_involution_witness :
    handleSelectAll "id" [[("id", Value.num 1)], [("id", Value.num 2)]]
        (handleSelectAll "id" [[("id", Value.num 1)], [("id", Value.num 2)]] ∅)
      = ∅ :=
  select_all_involution "id" [[("id", Value.num 1)], [("id", Value.num 2)]] ∅
    (by decide) (Or.inl rfl)

/-- C6: the derived view is stable — for every value of the active
column, the rows carrying exactly that sort key appear in the sorted
output in their original relative order, under either direction. -/
theorem sort_stable (data : List Row) (columns : List Column) (k : String)
    (dir : SortDir) (col : Column) (v : Value)
    (hfind : columns.find? (fun c => c.key == k) = some col) :
    (sortedData data columns ⟨some k, some dir⟩).filter
        (fun r => Row.get r col.dataIndex == v)
      = data.filter (fun r => Row.get r col.dataIndex == v) := by
  by_cases hk : k = ""
  · simp [sortedData, hk]
  · simp only [sortedData, if_neg hk, hfind]
    apply filter_jsSort
    intro x y hx hy
    have hx' : Row.get x col.dataIndex = v := by simpa using hx
    have hy' : Row.get y col.dataIndex = v := by simpa using hy
    simp [hx', hy', compareValues_self]

/-- Witness for C6 at a data set with duplicate sort keys (ages 25,
30, 25): the equal-keyed rows keep their original relative order. -/
theorem sort_stable_witness :
    (sortedData
        [[("id", Value.num 1), ("age", Value.num 25)],
         [("id", Value.num 2), ("age", Value.num 30)],
         [("id", Value.num 3), ("age", Value.num 25)]]
        [⟨"age", "age", true⟩] ⟨some "age", some SortDir.asc⟩).filter
        (fun r => Row.get r "age" == Value.num 25)
      = ([[("id", Value.num 1), ("age", Value.num 25)],
          [("id", Value.num 2), ("age", Value.num 30)],
          [("id", Value.num 3), ("age", Value.num 25)]] : List Row).filter
        (fun r => Row.get r "age" == Value.num 25) :=
  sort_stable
    [[("id", Value.num 1), ("age", Value.num 25)],
     [("id", Value.num 2), ("age", Value.num 30)],
     [("id", Value.num 3), ("age", Value.num 25)]]
    [⟨"age", "age", true⟩] "age" SortDir.asc ⟨"age", "age", true⟩ (Value.num 25)
    (by decide)
